import Mathlib

/-!
Verification of the djenga component library (django-brick-astley).

Shallow embedding of the core of the repository:
  * `src/djenga/component.py` — type validation (`_validate_type`),
    component construction (`Component._validate_and_set_kwargs`),
    context building (`Component.get_context_data`,
    `BlockComponent.render`), name derivation (`_camel_to_snake`,
    `Component.get_component_name`);
  * `src/djenga/registry.py` — the component registry (`register`);
  * `src/djenga/templatetags/djenga.py` — the tag-argument parser
    (`parse_tag_kwargs`, `_is_float`).

Python dictionaries are modelled as association lists in insertion
order; Python string operations are modelled over their character
lists (the model covers ASCII identifiers and values, where Python's
`str.isdigit` coincides with `[0-9]+` and `str.lower` with ASCII
lowercasing).
-/

namespace Djenga

/-- The runtime classes that occur in the modelled programs: the Python
builtins used as field annotations / container origins. -/
inductive PyKind where
  | int | float | str | bool | list | dict | noneType
  deriving DecidableEq, Repr

/-- Python runtime values as far as the library inspects them.  Floats
are carried as their source literal: no claim computes with float
values, validation and parsing only inspect their runtime class. -/
inductive PyVal where
  | vNone : PyVal
  | vBool : Bool → PyVal
  | vInt : Int → PyVal
  | vFloat : String → PyVal
  | vStr : String → PyVal
  | vList : List PyVal → PyVal
  | vDict : List (PyVal × PyVal) → PyVal

/-- `type(value).__name__` for the modelled values. -/
def PyVal.typeName : PyVal → String
  | .vNone => "NoneType"
  | .vBool _ => "bool"
  | .vInt _ => "int"
  | .vFloat _ => "float"
  | .vStr _ => "str"
  | .vList _ => "list"
  | .vDict _ => "dict"

/-- `type(value)`: the exact runtime class of a value. -/
def PyVal.runtimeKind : PyVal → PyKind
  | .vNone => .noneType
  | .vBool _ => .bool
  | .vInt _ => .int
  | .vFloat _ => .float
  | .vStr _ => .str
  | .vList _ => .list
  | .vDict _ => .dict

/-- Python `isinstance(value, cls)` for the modelled classes.  `bool`
is a subclass of `int` in Python, so a `bool` value is an instance of
`int`; all other modelled classes are unrelated. -/
def isinst (v : PyVal) (k : PyKind) : Bool :=
  match k, v with
  | .int, .vInt _ => true
  | .int, .vBool _ => true
  | .float, .vFloat _ => true
  | .bool, .vBool _ => true
  | .str, .vStr _ => true
  | .list, .vList _ => true
  | .dict, .vDict _ => true
  | .noneType, .vNone => true
  | _, _ => false

/-- Type annotations as the validator inspects them.
`prim k` is a plain class (no `__origin__`, no `__args__`);
`union args` is `typing.Union[...]` / `Optional` (`__origin__` is
`typing.Union`, `__args__ = args`, `None` alternatives appear as
`prim .noneType`); `generic origin args` is a parameterized container
such as `list[int]` (`__origin__ = origin`, `__args__ = args`). -/
inductive PyType where
  | prim : PyKind → PyType
  | union : List PyType → PyType
  | generic : PyKind → List PyType → PyType

/-- Whether a type annotation is literally `type(None)`. -/
def isNonePrim : PyType → Bool
  | .prim .noneType => true
  | _ => false

/-- `hasattr(expected_type, "__args__") and type(None) in
expected_type.__args__` (component.py line 35). -/
def hasNoneArg : PyType → Bool
  | .prim _ => false
  | .union args => args.any isNonePrim
  | .generic _ args => args.any isNonePrim

/-- `getattr(expected_type, "__origin__", None) is type(None)`
(component.py line 32). -/
def originIsNone : PyType → Bool
  | .generic .noneType _ => true
  | _ => false

/-- `ComponentValidationError`, structured by the raising site.  Each
constructor carries exactly the data interpolated into the
corresponding f-string in `component.py`. -/
inductive CVErr where
  | notOptional : String → CVErr
  | typeMismatch : String → PyType → String → CVErr
  | missingField : String → String → CVErr
  | unknownField : String → String → CVErr

/-- The f-string messages of the construction-time errors
(component.py lines 162-165 and 170-173); the type-mismatch messages
interpolate a type repr that no claim inspects, so they are rendered
from the structured data schematically. -/
def CVErr.message : CVErr → String
  | .missingField f cls =>
      "Missing required field '" ++ (f ++ ("' for component '" ++ (cls ++ "'")))
  | .unknownField f cls =>
      "Unknown field '" ++ (f ++ ("' for component '" ++ (cls ++ "'")))
  | .notOptional f =>
      "Field '" ++ (f ++ "' received None but is not optional")
  | .typeMismatch f _ got =>
      "Field '" ++ (f ++ ("' type mismatch, got " ++ got))

mutual

/-- `_validate_type(value, expected_type, field_name)` from
component.py lines 26-73, as a result value instead of a raised
exception. -/
def validate_type (v : PyVal) (expected : PyType) (field : String) :
    Except CVErr Unit :=
  match v with
  | .vNone =>
      if originIsNone expected then .ok ()
      else if hasNoneArg expected then .ok ()
      else .error (.notOptional field)
  | v =>
      match expected with
      | .union args => validateUnionArgs v args (.union args) field
      | .generic origin args =>
          if isinst v origin then .ok ()
          else .error (.typeMismatch field (.generic origin args) v.typeName)
      | .prim k =>
          if isinst v k then .ok ()
          else .error (.typeMismatch field (.prim k) v.typeName)

/-- The `Union` loop of `_validate_type` (component.py lines 50-61):
try each alternative in declared order, skipping `NoneType`; the error
reports the whole union type. -/
def validateUnionArgs (v : PyVal) (args : List PyType) (full : PyType)
    (field : String) : Except CVErr Unit :=
  match args with
  | [] => .error (.typeMismatch field full v.typeName)
  | a :: rest =>
      if isNonePrim a then validateUnionArgs v rest full field
      else
        match validate_type v a field with
        | .ok _ => .ok ()
        | .error _ => validateUnionArgs v rest full field

end

/-! ### Dictionaries / instance attributes

A Python `dict` with string keys, and equally the attribute table of
an instance written by `setattr`, is an association list in insertion
order: assignment to a present key updates it in place, assignment to
an absent key appends. -/

/-- `d[k] = v` on a string-keyed dict / `setattr(obj, k, v)`. -/
def dset {α : Type} (d : List (String × α)) (k : String) (v : α) :
    List (String × α) :=
  match d with
  | [] => [(k, v)]
  | (k', v') :: rest =>
      if k' = k then (k', v) :: rest else (k', v') :: dset rest k v

/-- `d.get(k)` / `getattr(obj, k, None-ish)`: first binding of `k`. -/
def dget {α : Type} (d : List (String × α)) (k : String) : Option α :=
  match d with
  | [] => none
  | (k', v') :: rest => if k' = k then some v' else dget rest k

/-- `k in d` / `hasattr(obj, k)`. -/
def dmem {α : Type} (d : List (String × α)) (k : String) : Bool :=
  (dget d k).isSome

/-! ### Component construction (`Component._validate_and_set_kwargs`) -/

/-- The data the metaclass leaves on a component class and that
construction reads: `__component_fields__` (name → annotation, in
declaration order), `__component_defaults__` (name → class-level
default), and the class `__name__` used in error messages. -/
structure ComponentSchema where
  clsName : String
  fields : List (String × PyType)
  defaults : List (String × PyVal)

/-- The required-field loop of `_validate_and_set_kwargs`
(component.py lines 159-165): the first field that is neither supplied
nor defaulted, in field-declaration order, aborts construction. -/
def checkRequired (cls : ComponentSchema)
    (kwargs : List (String × PyVal)) :
    List (String × PyType) → Except CVErr Unit
  | [] => .ok ()
  | (f, _) :: rest =>
      if ¬ (dget kwargs f).isSome ∧ ¬ (dget cls.defaults f).isSome then
        .error (.missingField f cls.clsName)
      else checkRequired cls kwargs rest

/-- The per-kwarg loop of `_validate_and_set_kwargs` (component.py
lines 167-188): unknown keys abort; a failed validation aborts when
`settings.DEBUG` is truthy and is logged (collected here in order)
otherwise; the supplied value is assigned either way.  Returns the
attribute writes applied over `attrs` and the accumulated warnings. -/
def processKwargs (cls : ComponentSchema) (debug : Bool)
    (attrs : List (String × PyVal)) (warns : List CVErr) :
    List (String × PyVal) →
    Except CVErr (List (String × PyVal) × List CVErr)
  | [] => .ok (attrs, warns)
  | (k, v) :: rest =>
      match dget cls.fields k with
      | none => .error (.unknownField k cls.clsName)
      | some expected =>
          match validate_type v expected k with
          | .ok _ => processKwargs cls debug (dset attrs k v) warns rest
          | .error e =>
              if debug then .error e
              else processKwargs cls debug (dset attrs k v) (warns ++ [e]) rest

/-- The defaults loop of `_validate_and_set_kwargs` (component.py
lines 190-193): every defaulted field not supplied in `kwargs` is
assigned its class-level default. -/
def applyDefaults (kwargs : List (String × PyVal))
    (attrs : List (String × PyVal)) :
    List (String × PyVal) → List (String × PyVal)
  | [] => attrs
  | (f, d) :: rest =>
      if (dget kwargs f).isSome then applyDefaults kwargs attrs rest
      else applyDefaults kwargs (dset attrs f d) rest

/-- `Component.__init__` / `_validate_and_set_kwargs` (component.py
lines 151-193): required check, per-kwarg validation and assignment,
then defaults.  `debug` is `settings.DEBUG` (strict mode when true).
On success, returns the instance's attribute table and the logged
warnings; on error, no instance is produced. -/
def constructComponent (cls : ComponentSchema)
    (kwargs : List (String × PyVal)) (debug : Bool) :
    Except CVErr (List (String × PyVal) × List CVErr) :=
  match checkRequired cls kwargs cls.fields with
  | .error e => .error e
  | .ok _ =>
      match processKwargs cls debug [] [] kwargs with
      | .error e => .error e
      | .ok (attrs, warns) =>
          .ok (applyDefaults kwargs attrs cls.defaults, warns)

/-! ### Context building (`Component.get_context_data`) -/

/-- The field loop of `get_context_data` (component.py lines 216-219):
one context entry per schema field the instance has an attribute for,
in field order. -/
def contextBase (attrs : List (String × PyVal)) :
    List (String × PyType) → List (String × PyVal) → List (String × PyVal)
  | [], ctx => ctx
  | (f, _) :: rest, ctx =>
      match dget attrs f with
      | some v => contextBase attrs rest (dset ctx f v)
      | none => contextBase attrs rest ctx

/-- `context.update(kwargs)` (component.py line 220). -/
def dictUpdate (ctx : List (String × PyVal)) :
    List (String × PyVal) → List (String × PyVal)
  | [] => ctx
  | (k, v) :: rest => dictUpdate (dset ctx k v) rest

/-- `Component.get_context_data(**extra)` (component.py lines
209-221). -/
def get_context_data (cls : ComponentSchema)
    (attrs : List (String × PyVal)) (extra : List (String × PyVal)) :
    List (String × PyVal) :=
  dictUpdate (contextBase attrs cls.fields []) extra

/-- The context `BlockComponent.render(children)` passes to the
template (component.py lines 253-257): `get_context_data` with the
children markup under the reserved key `children`. -/
def blockRenderContext (cls : ComponentSchema)
    (attrs : List (String × PyVal)) (children : String) :
    List (String × PyVal) :=
  get_context_data cls attrs [("children", .vStr children)]

/-! ### Name derivation (`_camel_to_snake`, `get_component_name`) -/

/-- The first substitution of `_camel_to_snake` (component.py line
22): `re.sub(r"(.)([A-Z][a-z]+)", r"\1_\2", name)`.  `re.sub` scans
left to right over non-overlapping matches; a match is any character,
an uppercase letter, and a maximal nonempty lowercase run; scanning
resumes after the run. -/
def reSub1 (l : List Char) : List Char :=
  match l with
  | [] => []
  | [c] => [c]
  | c1 :: c2 :: rest =>
      if c2.isUpper && (match rest with | c3 :: _ => c3.isLower | [] => false) then
        c1 :: '_' :: c2 ::
          (rest.takeWhile Char.isLower ++ reSub1 (rest.dropWhile Char.isLower))
      else
        c1 :: reSub1 (c2 :: rest)
  termination_by l.length
  decreasing_by
    · simp only [List.length_cons]
      have h := (List.dropWhile_suffix (l := rest) Char.isLower).length_le
      omega
    · simp [List.length_cons]

/-- The second substitution of `_camel_to_snake` (component.py line
23): `re.sub(r"([a-z0-9])([A-Z])", r"\1_\2", s1)`, again scanning left
to right over non-overlapping two-character matches. -/
def reSub2 (l : List Char) : List Char :=
  match l with
  | c1 :: c2 :: rest =>
      if (c1.isLower ∨ c1.isDigit) ∧ c2.isUpper then
        c1 :: '_' :: c2 :: reSub2 rest
      else
        c1 :: reSub2 (c2 :: rest)
  | l => l
  termination_by l.length

/-- `_camel_to_snake` (component.py lines 20-23): the two regex
substitutions followed by `.lower()`. -/
def camel_to_snake (name : String) : String :=
  String.mk ((reSub2 (reSub1 name.data)).map Char.toLower)

/-- The state of a component class that name resolution and the
registry read and write: its object identity (for Python `is`), its
`__module__` and `__name__`, and the `component_name` class
attribute. -/
structure ComponentCls where
  id : Nat
  modName : String
  pyName : String
  componentName : Option String

/-- `Component.get_component_name` (component.py lines 195-200):
`component_name` when it is set and truthy (a nonempty string), the
derived snake-case name otherwise. -/
def get_component_name (cls : ComponentCls) : String :=
  match cls.componentName with
  | some n => if n ≠ "" then n else camel_to_snake cls.pyName
  | none => camel_to_snake cls.pyName

/-! ### Registry (`registry.py`) -/

/-- The `ValueError` raised on a duplicate registration
(registry.py lines 73-76), carrying the data interpolated into the
message: the resolved name and the already-registered class. -/
inductive RegErr where
  | conflict : String → ComponentCls → RegErr

/-- The f-string of the duplicate-registration `ValueError`. -/
def RegErr.message : RegErr → String
  | .conflict n existing =>
      "Component name '" ++
        (n ++ ("' is already registered by " ++
          (existing.modName ++ ("." ++ existing.pyName))))

/-- Name resolution inside `register` (registry.py lines 61-67):
a truthy explicit `name` is used and persisted onto the class as
`component_name`; otherwise the class's `get_component_name()` is
used.  Returns the resolved name and the (possibly mutated) class. -/
def resolveRegistration (cls : ComponentCls) (name : Option String) :
    String × ComponentCls :=
  match name with
  | some n =>
      if n ≠ "" then (n, { cls with componentName := some n })
      else (get_component_name cls, cls)
  | none => (get_component_name cls, cls)

/-- `register` (registry.py lines 60-79) acting on an explicit
registry table: resolve the name, raise on an occupied name bound to
a different class (`is not` compares object identity), and otherwise
bind the name.  Returns the updated registry and class. -/
def registerComponent (reg : List (String × ComponentCls))
    (cls : ComponentCls) (name : Option String) :
    Except RegErr (List (String × ComponentCls) × ComponentCls) :=
  let resolved := resolveRegistration cls name
  match dget reg resolved.1 with
  | some existing =>
      if existing.id ≠ resolved.2.id then
        .error (.conflict resolved.1 existing)
      else .ok (dset reg resolved.1 resolved.2, resolved.2)
  | none => .ok (dset reg resolved.1 resolved.2, resolved.2)

/-! ### Tag-argument parsing (`templatetags/djenga.py`) -/

/-- A parsed tag-argument value: a literal, or a deferred
`template.Variable` carrying the raw text (its resolution is the
host engine's concern). Floats are carried as their literal text:
no claim computes with float values. -/
inductive TagValue where
  | str : String → TagValue
  | bool : Bool → TagValue
  | none : TagValue
  | int : Int → TagValue
  | float : String → TagValue
  | var : String → TagValue

/-- The failures `parse_tag_kwargs` can raise: the
`TemplateSyntaxError` for a fragment without `=`, and the unhandled
`ValueError` escaping `int(value)`. -/
inductive TagError where
  | syntaxError : String → TagError
  | valueError : String → TagError

/-- `bit.split("=", 1)` guarded by `"=" in bit`: `none` when the
fragment has no `=`, otherwise the parts before and after the first
`=`. -/
def splitEq : List Char → Option (List Char × List Char)
  | [] => Option.none
  | c :: rest =>
      if c = '=' then some ([], rest)
      else (splitEq rest).map (fun p => (c :: p.1, p.2))

/-- `value.lstrip("-").isdigit()` (djenga.py line 54): every leading
`-` stripped, then a nonempty all-digit remainder (ASCII). -/
def intBranch (value : List Char) : Bool :=
  let stripped := value.dropWhile (· = '-')
  ¬ stripped.isEmpty ∧ stripped.all Char.isDigit

/-- The numeric value of an all-digit string. -/
def digitsToNat (l : List Char) : Nat :=
  l.foldl (fun n c => 10 * n + (c.toNat - 48)) 0

/-- Python `int(value)` on the strings reaching line 55 (leading
dashes followed by digits): at most one leading sign is accepted; two
or more leading `-` raise `ValueError`.  (Full `int()` also accepts
`+`, surrounding whitespace and underscore separators; none of those
pass the `isdigit` guard.) -/
def pyIntConv (value : List Char) : Except TagError Int :=
  match value with
  | '-' :: rest =>
      if ¬ rest.isEmpty ∧ rest.all Char.isDigit then
        .ok (-(digitsToNat rest : Int))
      else .error (.valueError (String.mk value))
  | _ =>
      if ¬ value.isEmpty ∧ value.all Char.isDigit then
        .ok (digitsToNat value)
      else .error (.valueError (String.mk value))

/-- The optional exponent part of a float literal: empty, or `e`/`E`,
an optional sign, and a nonempty digit run. -/
def floatExp : List Char → Bool
  | [] => true
  | c :: rest =>
      (c = 'e' ∨ c = 'E') ∧
        (let body := match rest with
          | '+' :: r => r
          | '-' :: r => r
          | r => r
        ¬ body.isEmpty ∧ body.all Char.isDigit)

/-- The unsigned numeric body of a float literal: digits with an
optional point (at least one digit on one side), then an optional
exponent. -/
def floatBody (l : List Char) : Bool :=
  let d1 := l.takeWhile Char.isDigit
  let r1 := l.dropWhile Char.isDigit
  match r1 with
  | '.' :: r2 =>
      let d2 := r2.takeWhile Char.isDigit
      let r3 := r2.dropWhile Char.isDigit
      (¬ d1.isEmpty ∨ ¬ d2.isEmpty) ∧ floatExp r3
  | _ => ¬ d1.isEmpty ∧ floatExp r1

/-- The keyword float values `inf`, `infinity`, `nan`,
case-insensitive. -/
def floatSpecial (l : List Char) : Bool :=
  let low := l.map Char.toLower
  low = "inf".data ∨ low = "infinity".data ∨ low = "nan".data

/-- Whether Python `float(value)` succeeds: optional surrounding
whitespace, optional sign, then a numeric body or a keyword value.
(Underscore digit separators, accepted by Python, are omitted; no
claim depends on them.) -/
def pyFloatAccepts (value : List Char) : Bool :=
  let trimmed :=
    ((value.dropWhile Char.isWhitespace).reverse.dropWhile
        Char.isWhitespace).reverse
  let body := match trimmed with
    | '+' :: r => r
    | '-' :: r => r
    | r => r
  floatBody body ∨ floatSpecial body

/-- `_is_float` (djenga.py lines 66-72): `float(value)` succeeds and
the text contains a decimal point or an `e`/`E`. -/
def isFloatStr (value : List Char) : Bool :=
  pyFloatAccepts value ∧
    (value.contains '.' ∨ (value.map Char.toLower).contains 'e')

/-- The per-fragment classification of `parse_tag_kwargs` (djenga.py
lines 32-61): no `=` is a syntax error; then quote stripping, the
`True`/`False`/`None` keywords, the integer branch (where `int(value)`
may raise `ValueError`), the float branch, and finally a deferred
variable. -/
def parseBit (bit : String) : Except TagError (String × TagValue) :=
  match splitEq bit.data with
  | Option.none =>
      .error (.syntaxError
        ("Invalid argument '" ++
          (bit ++ "'. Arguments must be in kwarg=value format.")))
  | some (nameCs, valueCs) =>
      let name := String.mk nameCs
      let value := String.mk valueCs
      if (valueCs.head? = some '"' ∧ valueCs.getLast? = some '"') ∨
         (valueCs.head? = some '\'' ∧ valueCs.getLast? = some '\'') then
        .ok (name, .str (String.mk (valueCs.drop 1).dropLast))
      else if value = "True" then .ok (name, .bool true)
      else if value = "False" then .ok (name, .bool false)
      else if value = "None" then .ok (name, .none)
      else if intBranch valueCs then
        (pyIntConv valueCs).map (fun n => (name, .int n))
      else if isFloatStr valueCs then .ok (name, .float value)
      else .ok (name, .var value)

/-- The fragment loop of `parse_tag_kwargs`, accumulating the kwargs
dict. -/
def parseBits (kwargs : List (String × TagValue)) :
    List String → Except TagError (List (String × TagValue))
  | [] => .ok kwargs
  | bit :: rest =>
      match parseBit bit with
      | .error e => .error e
      | .ok (k, v) => parseBits (dset kwargs k v) rest

/-- `parse_tag_kwargs(parser, bits)` (djenga.py lines 19-63). -/
def parse_tag_kwargs (bits : List String) :
    Except TagError (List (String × TagValue)) :=
  parseBits [] bits

/-- `needle` occurs verbatim inside `hay`: the sense in which an error
message "names" a field, key or class. -/
def namedIn (needle hay : String) : Prop :=
  needle.data <:+: hay.data

instance (needle hay : String) : Decidable (namedIn needle hay) :=
  List.decidableInfix needle.data hay.data

/-! ### Dictionary lemmas -/

theorem dget_dset {α : Type} (d : List (String × α)) (k k' : String) (v : α) :
    dget (dset d k v) k' = if k' = k then some v else dget d k' := by
  induction d with
  | nil =>
      by_cases h : k' = k
      · subst h; simp [dset, dget]
      · simp [dset, dget, h, Ne.symm h]
  | cons hd tl ih =>
      obtain ⟨a, b⟩ := hd
      by_cases hak : a = k
      · subst hak
        by_cases hk' : a = k'
        · subst hk'; simp [dset, dget]
        · simp [dset, dget, hk', Ne.symm hk']
      · by_cases hk' : a = k'
        · subst hk'; simp [dset, dget, hak, Ne.symm hak]
        · simp [dset, dget, hak, hk', ih]

theorem dget_eq_none_of_not_mem {α : Type} {d : List (String × α)}
    {k : String} (h : k ∉ d.map Prod.fst) : dget d k = none := by
  induction d with
  | nil => rfl
  | cons hd tl ih =>
      obtain ⟨a, b⟩ := hd
      simp only [List.map_cons, List.mem_cons, not_or] at h
      simp [dget, Ne.symm h.1, ih h.2]

theorem dset_map_fst_of_not_mem {α : Type} {d : List (String × α)}
    {k : String} (v : α) (h : k ∉ d.map Prod.fst) :
    (dset d k v).map Prod.fst = d.map Prod.fst ++ [k] := by
  induction d with
  | nil => rfl
  | cons hd tl ih =>
      obtain ⟨a, b⟩ := hd
      simp only [List.map_cons, List.mem_cons, not_or] at h
      simp [dset, Ne.symm h.1, ih h.2]

theorem dictUpdate_dget_of_none (extra : List (String × PyVal)) :
    ∀ ctx k, dget extra k = none →
      dget (dictUpdate ctx extra) k = dget ctx k := by
  induction extra with
  | nil => intro ctx k _; rfl
  | cons hd tl ih =>
      intro ctx k h
      obtain ⟨k1, v1⟩ := hd
      by_cases h1 : k1 = k
      · simp [dget, h1] at h
      · have htl : dget tl k = none := by simpa [dget, h1] using h
        simp only [dictUpdate]
        rw [ih (dset ctx k1 v1) k htl, dget_dset]
        simp [Ne.symm h1]

theorem dictUpdate_dget_of_some (extra : List (String × PyVal)) :
    ∀ ctx k v, (extra.map Prod.fst).Nodup → dget extra k = some v →
      dget (dictUpdate ctx extra) k = some v := by
  induction extra with
  | nil => intro ctx k v _ h; simp [dget] at h
  | cons hd tl ih =>
      intro ctx k v hnd h
      obtain ⟨k1, v1⟩ := hd
      simp only [List.map_cons, List.nodup_cons] at hnd
      by_cases h1 : k1 = k
      · have hv : v1 = v := by simpa [dget, h1] using h
        subst hv
        have htl : dget tl k = none := dget_eq_none_of_not_mem (h1 ▸ hnd.1)
        simp only [dictUpdate]
        rw [dictUpdate_dget_of_none tl _ k htl, dget_dset]
        simp [h1]
      · have htl : dget tl k = some v := by simpa [dget, h1] using h
        simp only [dictUpdate]
        exact ih _ k v hnd.2 htl

theorem applyDefaults_dget_of_none (ds : List (String × PyVal)) :
    ∀ kwargs attrs k, dget ds k = none →
      dget (applyDefaults kwargs attrs ds) k = dget attrs k := by
  induction ds with
  | nil => intro kwargs attrs k _; rfl
  | cons hd tl ih =>
      intro kwargs attrs k h
      obtain ⟨f, d⟩ := hd
      by_cases hf : f = k
      · simp [dget, hf] at h
      · have htl : dget tl k = none := by simpa [dget, hf] using h
        by_cases hs : (dget kwargs f).isSome
        · simp only [applyDefaults, if_pos hs]
          exact ih kwargs attrs k htl
        · simp only [applyDefaults, if_neg hs]
          rw [ih kwargs _ k htl, dget_dset]
          simp [Ne.symm hf]

theorem applyDefaults_dget_supplied (ds : List (String × PyVal)) :
    ∀ kwargs attrs k, (dget kwargs k).isSome →
      dget (applyDefaults kwargs attrs ds) k = dget attrs k := by
  induction ds with
  | nil => intro kwargs attrs k _; rfl
  | cons hd tl ih =>
      intro kwargs attrs k h
      obtain ⟨f, d⟩ := hd
      by_cases hs : (dget kwargs f).isSome
      · simp only [applyDefaults, if_pos hs]
        exact ih kwargs attrs k h
      · simp only [applyDefaults, if_neg hs]
        rw [ih kwargs _ k h, dget_dset]
        have hfk : k ≠ f := by
          intro he; subst he; exact hs h
        simp [hfk]

theorem applyDefaults_dget_default (ds : List (String × PyVal)) :
    ∀ kwargs attrs k d, (ds.map Prod.fst).Nodup → dget kwargs k = none →
      dget ds k = some d →
      dget (applyDefaults kwargs attrs ds) k = some d := by
  induction ds with
  | nil => intro kwargs attrs k d _ _ h; simp [dget] at h
  | cons hd tl ih =>
      intro kwargs attrs k d hnd hk h
      obtain ⟨f, dv⟩ := hd
      simp only [List.map_cons, List.nodup_cons] at hnd
      by_cases hf : f = k
      · subst hf
        have hdv : dv = d := by simpa [dget] using h
        subst hdv
        have hks : ¬ (dget kwargs f).isSome := by simp [hk]
        simp only [applyDefaults, if_neg hks]
        have htl : dget tl f = none := dget_eq_none_of_not_mem hnd.1
        rw [applyDefaults_dget_of_none tl kwargs _ f htl, dget_dset]
        simp
      · have htl : dget tl k = some d := by simpa [dget, hf] using h
        by_cases hs : (dget kwargs f).isSome
        · simp only [applyDefaults, if_pos hs]
          exact ih kwargs attrs k d hnd.2 hk htl
        · simp only [applyDefaults, if_neg hs]
          exact ih kwargs _ k d hnd.2 hk htl

/-! ### Lemmas about the construction loops -/

theorem checkRequired_ok_of_forall (cls : ComponentSchema)
    (kwargs : List (String × PyVal)) :
    ∀ fs : List (String × PyType),
      (∀ p ∈ fs, (dget kwargs p.1).isSome ∨ (dget cls.defaults p.1).isSome) →
      checkRequired cls kwargs fs = .ok () := by
  intro fs
  induction fs with
  | nil => intro _; rfl
  | cons hd tl ih =>
      intro h
      obtain ⟨f, t⟩ := hd
      have hf := h (f, t) (by simp)
      have hcond : ¬ (¬ (dget kwargs f).isSome ∧ ¬ (dget cls.defaults f).isSome) := by
        rcases hf with hf | hf <;> simp [hf]
      simp only [checkRequired, if_neg hcond]
      exact ih (fun p hp => h p (List.mem_cons_of_mem _ hp))

theorem forall_of_checkRequired_ok (cls : ComponentSchema)
    (kwargs : List (String × PyVal)) :
    ∀ fs : List (String × PyType),
      checkRequired cls kwargs fs = .ok () →
      ∀ p ∈ fs, (dget kwargs p.1).isSome ∨ (dget cls.defaults p.1).isSome := by
  intro fs
  induction fs with
  | nil => intro _ p hp; simp at hp
  | cons hd tl ih =>
      intro h p hp
      obtain ⟨f, t⟩ := hd
      by_cases hcond : ¬ (dget kwargs f).isSome ∧ ¬ (dget cls.defaults f).isSome
      · simp [checkRequired, if_pos hcond] at h
      · simp only [checkRequired, if_neg hcond] at h
        rcases List.mem_cons.mp hp with hp | hp
        · subst hp
          rcases Decidable.not_and_iff_or_not.mp hcond with hc | hc
          · exact Or.inl (Decidable.of_not_not hc)
          · exact Or.inr (Decidable.of_not_not hc)
        · exact ih h p hp

theorem checkRequired_missing (cls : ComponentSchema)
    (kwargs : List (String × PyVal)) (f : String) (t : PyType)
    (post : List (String × PyType)) :
    ∀ pre : List (String × PyType),
      (∀ p ∈ pre, (dget kwargs p.1).isSome ∨ (dget cls.defaults p.1).isSome) →
      dget kwargs f = none → dget cls.defaults f = none →
      checkRequired cls kwargs (pre ++ (f, t) :: post) =
        .error (.missingField f cls.clsName) := by
  intro pre
  induction pre with
  | nil =>
      intro _ hk hd
      have hc : ¬ (dget kwargs f).isSome ∧ ¬ (dget cls.defaults f).isSome := by
        constructor <;> simp [hk, hd]
      simp only [List.nil_append, checkRequired, if_pos hc]
  | cons pr tl ih =>
      intro h hk hd
      obtain ⟨g, s⟩ := pr
      have hg := h (g, s) (by simp)
      have hcond : ¬ (¬ (dget kwargs g).isSome ∧ ¬ (dget cls.defaults g).isSome) := by
        rcases hg with hg | hg <;> simp [hg]
      simp only [List.cons_append, checkRequired, if_neg hcond]
      exact ih (fun p hp => h p (List.mem_cons_of_mem _ hp)) hk hd

theorem processKwargs_ok_attrs (cls : ComponentSchema) (debug : Bool) :
    ∀ (kws : List (String × PyVal)) attrs warns attrs2 warns2,
      processKwargs cls debug attrs warns kws = .ok (attrs2, warns2) →
      attrs2 = dictUpdate attrs kws := by
  intro kws
  induction kws with
  | nil =>
      intro attrs warns attrs2 warns2 h
      simp only [processKwargs] at h
      cases h
      rfl
  | cons hd tl ih =>
      intro attrs warns attrs2 warns2 h
      obtain ⟨k, v⟩ := hd
      cases he : dget cls.fields k with
      | none => simp [processKwargs, he] at h
      | some t =>
          cases hv : validate_type v t k with
          | ok u =>
              exact ih _ _ _ _ (by simpa only [processKwargs, he, hv] using h)
          | error e =>
              cases debug with
              | true => simp [processKwargs, he, hv] at h
              | false =>
                  exact ih _ _ _ _
                    (by simpa only [processKwargs, he, hv,
                      Bool.false_eq_true, if_false] using h)

theorem processKwargs_lenient_ok (cls : ComponentSchema) :
    ∀ (kws : List (String × PyVal)) attrs warns,
      (∀ p ∈ kws, (dget cls.fields p.1).isSome) →
      ∃ warns2, processKwargs cls false attrs warns kws =
        .ok (dictUpdate attrs kws, warns2) := by
  intro kws
  induction kws with
  | nil => intro attrs warns _; exact ⟨warns, rfl⟩
  | cons hd tl ih =>
      intro attrs warns h
      obtain ⟨k, v⟩ := hd
      have hk := h (k, v) (by simp)
      cases he : dget cls.fields k with
      | none => rw [he] at hk; simp at hk
      | some t =>
          have htl := fun p hp => h p (List.mem_cons_of_mem _ hp)
          cases hv : validate_type v t k with
          | ok u =>
              obtain ⟨w2, hw⟩ := ih (dset attrs k v) warns htl
              exact ⟨w2, by simp only [processKwargs, he, hv]; exact hw⟩
          | error e =>
              obtain ⟨w2, hw⟩ := ih (dset attrs k v) (warns ++ [e]) htl
              exact ⟨w2, by simp only [processKwargs, he, hv]; exact hw⟩

theorem processKwargs_strict_error (cls : ComponentSchema) :
    ∀ (kws : List (String × PyVal)) attrs warns f t v e,
      dget kws f = some v → dget cls.fields f = some t →
      validate_type v t f = .error e →
      ∃ e2, processKwargs cls true attrs warns kws = .error e2 := by
  intro kws
  induction kws with
  | nil => intro attrs warns f t v e h; simp [dget] at h
  | cons hd tl ih =>
      intro attrs warns f t v e h ht hv
      obtain ⟨k1, v1⟩ := hd
      by_cases h1 : k1 = f
      · have hv1 : v1 = v := by simpa [dget, h1] using h
        subst hv1; subst h1
        simp only [processKwargs, ht, hv]
        exact ⟨e, by simp⟩
      · have htl : dget tl f = some v := by simpa [dget, h1] using h
        cases he : dget cls.fields k1 with
        | none => exact ⟨.unknownField k1 cls.clsName, by simp [processKwargs, he]⟩
        | some t1 =>
            cases hval : validate_type v1 t1 k1 with
            | ok u =>
                obtain ⟨e2, h2⟩ := ih (dset attrs k1 v1) warns f t v e htl ht hv
                exact ⟨e2, by simp only [processKwargs, he, hval]; exact h2⟩
            | error e1 =>
                exact ⟨e1, by simp [processKwargs, he, hval]⟩

theorem processKwargs_unknown (cls : ComponentSchema) (debug : Bool)
    (k : String) (v : PyVal) (post : List (String × PyVal)) :
    ∀ (pre : List (String × PyVal)) attrs warns,
      (∀ p ∈ pre, ∃ t, dget cls.fields p.1 = some t ∧
        validate_type p.2 t p.1 = .ok ()) →
      dget cls.fields k = none →
      processKwargs cls debug attrs warns (pre ++ (k, v) :: post) =
        .error (.unknownField k cls.clsName) := by
  intro pre
  induction pre with
  | nil =>
      intro attrs warns _ hk
      simp [processKwargs, hk]
  | cons hd tl ih =>
      intro attrs warns h hk
      obtain ⟨k1, v1⟩ := hd
      obtain ⟨t1, ht1, hval⟩ := h (k1, v1) (by simp)
      simp only [List.cons_append, processKwargs, ht1, hval]
      exact ih _ _ (fun p hp => h p (List.mem_cons_of_mem _ hp)) hk

theorem contextBase_dget (attrs : List (String × PyVal)) (k : String) :
    ∀ (fields : List (String × PyType)) ctx,
      (∀ p ∈ fields, (dget attrs p.1).isSome) →
      dget (contextBase attrs fields ctx) k =
        if k ∈ fields.map Prod.fst then dget attrs k else dget ctx k := by
  intro fields
  induction fields with
  | nil => intro ctx _; simp [contextBase]
  | cons hd tl ih =>
      intro ctx h
      obtain ⟨f, t⟩ := hd
      have hf := h (f, t) (by simp)
      cases hv : dget attrs f with
      | none => rw [hv] at hf; simp at hf
      | some v =>
          have htl := fun p hp => h p (List.mem_cons_of_mem _ hp)
          simp only [contextBase, hv]
          rw [ih _ htl]
          by_cases hmem : k ∈ tl.map Prod.fst
          · simp [hmem]
          · rw [if_neg hmem, dget_dset]
            by_cases hkf : k = f
            · subst hkf; simp [hv]
            · simp [hkf, hmem, Ne.symm hkf]

theorem contextBase_map_fst (attrs : List (String × PyVal)) :
    ∀ (fields : List (String × PyType)) ctx,
      (∀ p ∈ fields, (dget attrs p.1).isSome) →
      (∀ p ∈ fields, p.1 ∉ ctx.map Prod.fst) →
      (fields.map Prod.fst).Nodup →
      (contextBase attrs fields ctx).map Prod.fst =
        ctx.map Prod.fst ++ fields.map Prod.fst := by
  intro fields
  induction fields with
  | nil => intro ctx _ _ _; simp [contextBase]
  | cons hd tl ih =>
      intro ctx h hdisj hnd
      obtain ⟨f, t⟩ := hd
      have hf := h (f, t) (by simp)
      simp only [List.map_cons, List.nodup_cons] at hnd
      cases hv : dget attrs f with
      | none => rw [hv] at hf; simp at hf
      | some v =>
          simp only [contextBase, hv]
          have hfc : f ∉ ctx.map Prod.fst := hdisj (f, t) (by simp)
          rw [ih _ (fun p hp => h p (List.mem_cons_of_mem _ hp))
            (fun p hp => by
              rw [dset_map_fst_of_not_mem v hfc]
              simp only [List.mem_append, List.mem_singleton, not_or]
              refine ⟨hdisj p (List.mem_cons_of_mem _ hp), ?_⟩
              intro he
              exact hnd.1 (he ▸ (List.mem_map_of_mem Prod.fst hp)))
            hnd.2]
          rw [dset_map_fst_of_not_mem v hfc]
          simp

/-- `_validate_type` on a plain class and a non-None value is exactly
the `isinstance` check of component.py line 70. -/
theorem validate_type_prim (v : PyVal) (k : PyKind) (field : String)
    (hv : v ≠ .vNone) :
    validate_type v (.prim k) field =
      if isinst v k then .ok ()
      else .error (.typeMismatch field (.prim k) v.typeName) := by
  cases v <;> simp_all [validate_type]

/-- `isinstance` against a plain class holds exactly when the runtime
type matches, except that a `bool` is accepted where `int` is
expected. -/
theorem isinst_iff_runtimeKind (v : PyVal) (k : PyKind) :
    isinst v k = true ↔
      (v.runtimeKind = k ∨ (v.runtimeKind = .bool ∧ k = .int)) := by
  cases v <;> cases k <;> simp [isinst, PyVal.runtimeKind]

/-! ## Claim theorems -/

/-- C1: construction policy is mode-dependent.  If the required-field
and unknown-key checks pass and the value supplied for field `f` fails
type validation, then with `settings.DEBUG` truthy (strict mode)
construction aborts with a validation error, while with it falsy
(lenient mode) the same construction succeeds and the instance's
attribute `f` holds exactly the supplied, wrongly-typed value. -/
theorem construction_mode_policy (cls : ComponentSchema)
    (kwargs : List (String × PyVal)) (f : String) (t : PyType)
    (v : PyVal) (e : CVErr)
    (hreq : ∀ p ∈ cls.fields,
      (dget kwargs p.1).isSome ∨ (dget cls.defaults p.1).isSome)
    (hknown : ∀ p ∈ kwargs, (dget cls.fields p.1).isSome)
    (hf : dget kwargs f = some v)
    (ht : dget cls.fields f = some t)
    (hfail : validate_type v t f = .error e)
    (hnd : (kwargs.map Prod.fst).Nodup) :
    (∃ e2, constructComponent cls kwargs true = .error e2) ∧
    ∃ attrs warns, constructComponent cls kwargs false = .ok (attrs, warns) ∧
      dget attrs f = some v := by
  have hchk := checkRequired_ok_of_forall cls kwargs cls.fields hreq
  constructor
  · obtain ⟨e2, h2⟩ :=
      processKwargs_strict_error cls kwargs [] [] f t v e hf ht hfail
    exact ⟨e2, by simp only [constructComponent, hchk, h2]⟩
  · obtain ⟨w2, hw⟩ := processKwargs_lenient_ok cls kwargs [] [] hknown
    refine ⟨applyDefaults kwargs (dictUpdate [] kwargs) cls.defaults, w2,
      by simp only [constructComponent, hchk, hw], ?_⟩
    rw [applyDefaults_dget_supplied cls.defaults kwargs _ f (by simp [hf])]
    exact dictUpdate_dget_of_some kwargs [] f v hnd hf

/-- Witness for C1: `count: int` supplied with the string
`"not an int"` fails validation; strict construction errors, lenient
construction succeeds with `count` holding the string verbatim. -/
theorem construction_mode_policy_witness :
    validate_type (.vStr "not an int") (.prim .int) "count" =
      .error (.typeMismatch "count" (.prim .int) "str") ∧
    (∃ e2, constructComponent ⟨"MyComponent", [("count", .prim .int)], []⟩
      [("count", .vStr "not an int")] true = .error e2) ∧
    ∃ attrs warns,
      constructComponent ⟨"MyComponent", [("count", .prim .int)], []⟩
        [("count", .vStr "not an int")] false = .ok (attrs, warns) ∧
      dget attrs "count" = some (.vStr "not an int") := by
  refine ⟨rfl, ?_⟩
  exact construction_mode_policy
    ⟨"MyComponent", [("count", .prim .int)], []⟩
    [("count", .vStr "not an int")] "count" (.prim .int)
    (.vStr "not an int") (.typeMismatch "count" (.prim .int) "str")
    (by intro p hp; simp at hp; subst hp; left; rfl)
    (by intro p hp; simp at hp; subst hp; rfl)
    rfl rfl rfl (by simp)

/-- C2: a schema field with no default that is not supplied aborts
construction, in either mode, with a `MissingFieldError`
(`ComponentValidationError`) naming that field — the first such field
in declaration order; no instance is produced. -/
theorem missing_required_field_fatal (cls : ComponentSchema)
    (kwargs : List (String × PyVal)) (f : String) (t : PyType)
    (pre post : List (String × PyType)) (debug : Bool)
    (hfields : cls.fields = pre ++ (f, t) :: post)
    (hpre : ∀ p ∈ pre,
      (dget kwargs p.1).isSome ∨ (dget cls.defaults p.1).isSome)
    (hk : dget kwargs f = none) (hd : dget cls.defaults f = none) :
    constructComponent cls kwargs debug =
      .error (.missingField f cls.clsName) ∧
    namedIn f (CVErr.message (.missingField f cls.clsName)) := by
  constructor
  · have h := checkRequired_missing cls kwargs f t post pre hpre hk hd
    simp only [constructComponent, hfields, h]
  · refine ⟨"Missing required field '".data,
      ("' for component '" ++ (cls.clsName ++ "'")).data, ?_⟩
    show _ ++ _ ++ _ = _
    simp [CVErr.message, List.append_assoc]

/-- Witness for C2: `name: str` with no default, constructed with no
arguments, in both modes. -/
theorem missing_required_field_fatal_witness :
    dget ([] : List (String × PyVal)) "name" = none ∧
    (constructComponent ⟨"MyComponent", [("name", .prim .str)], []⟩ [] true =
      .error (.missingField "name" "MyComponent") ∧
     namedIn "name" (CVErr.message (.missingField "name" "MyComponent"))) ∧
    (constructComponent ⟨"MyComponent", [("name", .prim .str)], []⟩ [] false =
      .error (.missingField "name" "MyComponent") ∧
     namedIn "name" (CVErr.message (.missingField "name" "MyComponent"))) := by
  refine ⟨rfl, ?_, ?_⟩
  · exact missing_required_field_fatal
      ⟨"MyComponent", [("name", .prim .str)], []⟩ [] "name" (.prim .str)
      [] [] true rfl (by simp) rfl rfl
  · exact missing_required_field_fatal
      ⟨"MyComponent", [("name", .prim .str)], []⟩ [] "name" (.prim .str)
      [] [] false rfl (by simp) rfl rfl

/-- C3: a kwarg key absent from the schema aborts construction with an
`UnknownFieldError` (`ComponentValidationError`) naming that key, in
strict and lenient mode alike — provided the required-field pass
succeeded and the kwargs processed before it validated. -/
theorem unknown_field_fatal (cls : ComponentSchema) (k : String)
    (v : PyVal) (pre post : List (String × PyVal)) (debug : Bool)
    (hreq : ∀ p ∈ cls.fields,
      (dget (pre ++ (k, v) :: post) p.1).isSome ∨
        (dget cls.defaults p.1).isSome)
    (hpre : ∀ p ∈ pre, ∃ t, dget cls.fields p.1 = some t ∧
      validate_type p.2 t p.1 = .ok ())
    (hk : dget cls.fields k = none) :
    constructComponent cls (pre ++ (k, v) :: post) debug =
      .error (.unknownField k cls.clsName) ∧
    namedIn k (CVErr.message (.unknownField k cls.clsName)) := by
  constructor
  · have hchk := checkRequired_ok_of_forall cls _ cls.fields hreq
    have hp := processKwargs_unknown cls debug k v post pre [] [] hpre hk
    simp only [constructComponent, hchk, hp]
  · refine ⟨"Unknown field '".data,
      ("' for component '" ++ (cls.clsName ++ "'")).data, ?_⟩
    show _ ++ _ ++ _ = _
    simp [CVErr.message, List.append_assoc]

/-- Witness for C3: key `unknown` against a schema with only `name`,
in both modes. -/
theorem unknown_field_fatal_witness :
    dget [("name", PyType.prim .str)] "unknown" = none ∧
    (constructComponent
      ⟨"MyComponent", [("name", .prim .str)], []⟩
      ([("name", .vStr "test")] ++ ("unknown", .vStr "value") :: []) true =
        .error (.unknownField "unknown" "MyComponent") ∧
     namedIn "unknown" (CVErr.message (.unknownField "unknown" "MyComponent"))) ∧
    (constructComponent
      ⟨"MyComponent", [("name", .prim .str)], []⟩
      ([("name", .vStr "test")] ++ ("unknown", .vStr "value") :: []) false =
        .error (.unknownField "unknown" "MyComponent") ∧
     namedIn "unknown"
       (CVErr.message (.unknownField "unknown" "MyComponent"))) := by
  refine ⟨rfl, ?_, ?_⟩
  · exact unknown_field_fatal ⟨"MyComponent", [("name", .prim .str)], []⟩
      "unknown" (.vStr "value") [("name", .vStr "test")] [] true
      (by intro p hp; simp at hp; subst hp; left; rfl)
      (by intro p hp; simp at hp; subst hp; exact ⟨.prim .str, rfl, rfl⟩)
      rfl
  · exact unknown_field_fatal ⟨"MyComponent", [("name", .prim .str)], []⟩
      "unknown" (.vStr "value") [("name", .vStr "test")] [] false
      (by intro p hp; simp at hp; subst hp; left; rfl)
      (by intro p hp; simp at hp; subst hp; exact ⟨.prim .str, rfl, rfl⟩)
      rfl

/-- C4 (amended): for a non-None value and a `Primitive` descriptor,
validation succeeds iff `isinstance(value, descriptor)` holds — that
is, iff the value's runtime type matches the descriptor exactly OR the
value is a `bool` and the descriptor is `int` (Python's `bool` is a
subclass of `int`).  There is no other coercion: in particular an
integer is rejected where a float is expected, unless a union
alternative permits it. -/
theorem prim_validation_isinstance (v : PyVal) (k : PyKind)
    (field : String) (n : Int) (hv : v ≠ .vNone) :
    ((validate_type v (.prim k) field = .ok ()) ↔
      (v.runtimeKind = k ∨ (v.runtimeKind = .bool ∧ k = .int))) ∧
    validate_type (.vInt n) (.prim .float) field =
      .error (.typeMismatch field (.prim .float) "int") ∧
    validate_type (.vInt n) (.union [.prim .float, .prim .int]) field =
      .ok () := by
  refine ⟨?_, rfl, rfl⟩
  rw [validate_type_prim v k field hv, ← isinst_iff_runtimeKind]
  cases h : isinst v k <;> simp [h]

/-- Witness for C4 (amended): a string against `str` (exact match), an
integer against `float` (rejected), the union permitting it. -/
theorem prim_validation_isinstance_witness :
    (PyVal.vStr "x" ≠ .vNone) ∧
    ((validate_type (.vStr "x") (.prim .str) "label" = .ok ()) ↔
      ((PyVal.vStr "x").runtimeKind = .str ∨
        ((PyVal.vStr "x").runtimeKind = .bool ∧ PyKind.str = .int))) ∧
    validate_type (.vInt 7) (.prim .float) "label" =
      .error (.typeMismatch "label" (.prim .float) "int") ∧
    validate_type (.vInt 7) (.union [.prim .float, .prim .int]) "label" =
      .ok () := by
  refine ⟨by simp, ?_⟩
  exact prim_validation_isinstance (.vStr "x") .str "label" 7 (by simp)

/-- Counterexample to C4 as stated: with the Python value `True` and
descriptor `int`, validation succeeds even though the value's runtime
type is `bool`, not `int` — so "succeeds iff the runtime type matches
exactly" is false. -/
theorem prim_validation_exact_counterexample :
    ¬ ((validate_type (.vBool true) (.prim .int) "count" = .ok ()) ↔
        (PyVal.vBool true).runtimeKind = .int) := by
  intro h
  exact absurd (h.mp rfl) (by decide)

/-- C5 (amended): registering a class under a name already bound to
that identical class (same object) is a no-op success — the registry
maps the same names to the same class objects; registering a
different class under an occupied name raises a fatal conflict
(`ValueError`) whose error carries the occupied name and names the
occupied tag name and the already-registered class in its message
(the newly registered class is not named), and returns no updated
registry. -/
theorem registry_collision_policy (reg : List (String × ComponentCls))
    (cls cls2 : ComponentCls) (name : Option String) (n : String)
    (existing : ComponentCls)
    (hres : resolveRegistration cls name = (n, cls2))
    (hocc : dget reg n = some existing) :
    (existing.id = cls2.id →
      registerComponent reg cls name = .ok (dset reg n cls2, cls2) ∧
      ∀ m, (dget (dset reg n cls2) m).map ComponentCls.id =
        (dget reg m).map ComponentCls.id) ∧
    (existing.id ≠ cls2.id →
      registerComponent reg cls name = .error (.conflict n existing) ∧
      namedIn n (RegErr.message (.conflict n existing)) ∧
      namedIn existing.pyName (RegErr.message (.conflict n existing))) := by
  constructor
  · intro hid
    constructor
    · simp [registerComponent, hres, hocc, hid]
    · intro m
      rw [dget_dset]
      by_cases hm : m = n
      · subst hm; simp [hocc, hid]
      · simp [hm]
  · intro hid
    refine ⟨by simp [registerComponent, hres, hocc, hid], ?_, ?_⟩
    · refine ⟨"Component name '".data,
        ("' is already registered by " ++
          (existing.modName ++ ("." ++ existing.pyName))).data, ?_⟩
      show _ ++ _ ++ _ = _
      simp [RegErr.message, List.append_assoc]
    · refine ⟨("Component name '" ++ (n ++ ("' is already registered by " ++
        (existing.modName ++ ".")))).data, ([] : List Char), ?_⟩
      show _ ++ _ ++ _ = _
      simp [RegErr.message, List.append_assoc]

/-- Witness for C5: the no-op on re-registering the identical class
object under its bound name, and the conflict on a different class. -/
theorem registry_collision_policy_witness :
    (registerComponent [("foo", ⟨0, "app", "Foo", some "foo"⟩)]
        ⟨0, "app", "Foo", some "foo"⟩ Option.none =
      .ok (dset [("foo", ⟨0, "app", "Foo", some "foo"⟩)] "foo"
        ⟨0, "app", "Foo", some "foo"⟩, ⟨0, "app", "Foo", some "foo"⟩) ∧
     ∀ m, (dget (dset [("foo", ⟨0, "app", "Foo", some "foo"⟩)] "foo"
        ⟨0, "app", "Foo", some "foo"⟩) m).map ComponentCls.id =
       (dget [("foo", (⟨0, "app", "Foo", some "foo"⟩ : ComponentCls))]
         m).map ComponentCls.id) ∧
    (registerComponent [("foo", ⟨0, "app", "Foo", some "foo"⟩)]
        ⟨1, "app2", "Bar", Option.none⟩ (some "foo") =
      .error (.conflict "foo" ⟨0, "app", "Foo", some "foo"⟩) ∧
     namedIn "foo"
       (RegErr.message (.conflict "foo" ⟨0, "app", "Foo", some "foo"⟩)) ∧
     namedIn "Foo"
       (RegErr.message (.conflict "foo" ⟨0, "app", "Foo", some "foo"⟩))) := by
  constructor
  · exact (registry_collision_policy
      [("foo", ⟨0, "app", "Foo", some "foo"⟩)]
      ⟨0, "app", "Foo", some "foo"⟩ ⟨0, "app", "Foo", some "foo"⟩
      Option.none "foo" ⟨0, "app", "Foo", some "foo"⟩ rfl rfl).1 rfl
  · exact (registry_collision_policy
      [("foo", ⟨0, "app", "Foo", some "foo"⟩)]
      ⟨1, "app2", "Bar", Option.none⟩ ⟨1, "app2", "Bar", some "foo"⟩
      (some "foo") "foo" ⟨0, "app", "Foo", some "foo"⟩ rfl rfl).2
      (by simp)

/-- Counterexample to C5 as stated: the conflict error raised when
`Bar` claims the name `foo` held by `app.Foo` does not name both
classes — the new class's identifier `Bar` appears nowhere in the
message. -/
theorem registry_conflict_counterexample :
    registerComponent [("foo", ⟨0, "app", "Foo", Option.none⟩)]
        ⟨1, "app2", "Bar", Option.none⟩ (some "foo") =
      .error (.conflict "foo" ⟨0, "app", "Foo", Option.none⟩) ∧
    ¬ namedIn "Bar"
      (RegErr.message (.conflict "foo" ⟨0, "app", "Foo", Option.none⟩)) := by
  exact ⟨rfl, by decide⟩

/-- C8: tag-name derivation is the pure function `_camel_to_snake` of
the class identifier (so deterministic and the same on every query):
`MyFancyButtonComponent` derives `my_fancy_button_component`; a truthy
explicit name given at registration overrides derivation, is persisted
onto the class as `component_name`, and is what `get_component_name`
returns from then on. -/
theorem tag_name_derivation (cls : ComponentCls) (n : String)
    (hn : n ≠ "") :
    camel_to_snake "MyFancyButtonComponent" = "my_fancy_button_component" ∧
    (cls.componentName = Option.none →
      get_component_name cls = camel_to_snake cls.pyName) ∧
    resolveRegistration cls (some n) =
      (n, { cls with componentName := some n }) ∧
    get_component_name { cls with componentName := some n } = n := by
  refine ⟨by simp +decide [camel_to_snake, reSub1, reSub2], ?_, ?_, ?_⟩
  · intro h; simp [get_component_name, h]
  · simp [resolveRegistration, hn]
  · simp [get_component_name, hn]

/-- Witness for C8 at the class `MyFancyButtonComponent` and the
explicit name `custom`. -/
theorem tag_name_derivation_witness :
    ("custom" : String) ≠ "" ∧
    (camel_to_snake "MyFancyButtonComponent" = "my_fancy_button_component" ∧
     ((⟨0, "m", "MyFancyButtonComponent", Option.none⟩ :
        ComponentCls).componentName = Option.none →
       get_component_name ⟨0, "m", "MyFancyButtonComponent", Option.none⟩ =
         camel_to_snake "MyFancyButtonComponent") ∧
     resolveRegistration ⟨0, "m", "MyFancyButtonComponent", Option.none⟩
        (some "custom") =
       ("custom", ⟨0, "m", "MyFancyButtonComponent", some "custom"⟩) ∧
     get_component_name ⟨0, "m", "MyFancyButtonComponent", some "custom"⟩ =
       "custom") := by
  refine ⟨by simp, ?_⟩
  exact tag_name_derivation ⟨0, "m", "MyFancyButtonComponent", Option.none⟩
    "custom" (by simp)

/-- C9: `get_context_data` returns one entry per schema field (from
the instance's current attribute values, for an instance that has
them all) overlaid by the render-time extras, extras winning on key
collision; `BlockComponent.render` passes the children markup under
the reserved key `children`, which therefore shadows any same-named
field. -/
theorem context_overlay (cls : ComponentSchema)
    (attrs extra : List (String × PyVal)) (children : String)
    (hcov : ∀ p ∈ cls.fields, (dget attrs p.1).isSome)
    (hnd : (extra.map Prod.fst).Nodup) :
    (∀ k v, dget extra k = some v →
      dget (get_context_data cls attrs extra) k = some v) ∧
    (∀ k, dget extra k = none →
      dget (get_context_data cls attrs extra) k =
        if k ∈ cls.fields.map Prod.fst then dget attrs k else none) ∧
    dget (blockRenderContext cls attrs children) "children" =
      some (.vStr children) := by
  refine ⟨?_, ?_, ?_⟩
  · intro k v h
    exact dictUpdate_dget_of_some extra _ k v hnd h
  · intro k h
    unfold get_context_data
    rw [dictUpdate_dget_of_none extra _ k h,
      contextBase_dget attrs k cls.fields [] hcov]
    rfl
  · exact dictUpdate_dget_of_some _ _ _ _ (by simp) (by simp [dget])

/-- Witness for C9: a block component whose schema itself declares a
`children` field; the extras override the field value on collision
and are taken verbatim for fresh keys, other fields come from the
instance. -/
theorem context_overlay_witness :
    dget (get_context_data
      ⟨"Card", [("title", .prim .str), ("children", .prim .str)], []⟩
      [("title", .vStr "T"), ("children", .vStr "F")]
      [("x", .vInt 1)]) "x" = some (.vInt 1) ∧
    dget (get_context_data
      ⟨"Card", [("title", .prim .str), ("children", .prim .str)], []⟩
      [("title", .vStr "T"), ("children", .vStr "F")]
      [("x", .vInt 1)]) "title" = some (.vStr "T") ∧
    dget (blockRenderContext
      ⟨"Card", [("title", .prim .str), ("children", .prim .str)], []⟩
      [("title", .vStr "T"), ("children", .vStr "F")]
      "MARKUP") "children" = some (.vStr "MARKUP") := by
  have h := context_overlay
    ⟨"Card", [("title", .prim .str), ("children", .prim .str)], []⟩
    [("title", .vStr "T"), ("children", .vStr "F")]
    [("x", .vInt 1)] "MARKUP"
    (by intro p hp; simp at hp
        rcases hp with hp | hp <;> subst hp <;> rfl)
    (by simp)
  refine ⟨h.1 "x" (.vInt 1) rfl, ?_, h.2.2⟩
  rw [h.2.1 "title" rfl]
  rfl

/-- C10: after every successful construction, in either mode, every
schema field is assigned on the instance — each supplied key holds its
supplied value, each unsupplied field has a default and holds it —
and the context built with no extras has exactly one entry per schema
field, in declaration order. -/
theorem construction_totality (cls : ComponentSchema)
    (kwargs attrs : List (String × PyVal)) (warns : List CVErr)
    (debug : Bool)
    (hndF : (cls.fields.map Prod.fst).Nodup)
    (hndK : (kwargs.map Prod.fst).Nodup)
    (hndD : (cls.defaults.map Prod.fst).Nodup)
    (hok : constructComponent cls kwargs debug = .ok (attrs, warns)) :
    (∀ k v, dget kwargs k = some v → dget attrs k = some v) ∧
    (∀ f, f ∈ cls.fields.map Prod.fst → dget kwargs f = none →
      (dget cls.defaults f).isSome ∧ dget attrs f = dget cls.defaults f) ∧
    (get_context_data cls attrs []).map Prod.fst =
      cls.fields.map Prod.fst := by
  cases hchk : checkRequired cls kwargs cls.fields with
  | error e => simp [constructComponent, hchk] at hok
  | ok u =>
      cases u
      cases hpk : processKwargs cls debug [] [] kwargs with
      | error e => simp [constructComponent, hchk, hpk] at hok
      | ok pr =>
          obtain ⟨attrs0, warns0⟩ := pr
          have hattrs0 : attrs0 = dictUpdate [] kwargs :=
            processKwargs_ok_attrs cls debug kwargs [] [] attrs0 warns0 hpk
          have hattrs : attrs = applyDefaults kwargs attrs0 cls.defaults := by
            simp only [constructComponent, hchk, hpk, Except.ok.injEq,
              Prod.mk.injEq] at hok
            exact hok.1.symm
          have hsup : ∀ k v, dget kwargs k = some v → dget attrs k = some v := by
            intro k v h
            rw [hattrs,
              applyDefaults_dget_supplied cls.defaults kwargs attrs0 k
                (by simp [h]),
              hattrs0]
            exact dictUpdate_dget_of_some kwargs [] k v hndK h
          have hdef : ∀ f, f ∈ cls.fields.map Prod.fst →
              dget kwargs f = none →
              (dget cls.defaults f).isSome ∧
                dget attrs f = dget cls.defaults f := by
            intro f hmem hnone
            obtain ⟨p, hp, hfst⟩ := List.mem_map.mp hmem
            have hreq := forall_of_checkRequired_ok cls kwargs cls.fields
              hchk p hp
            rw [hfst] at hreq
            rcases hreq with hreq | hreq
            · rw [hnone] at hreq; simp at hreq
            · obtain ⟨d, hd⟩ := Option.isSome_iff_exists.mp hreq
              refine ⟨hreq, ?_⟩
              rw [hattrs,
                applyDefaults_dget_default cls.defaults kwargs attrs0 f d
                  hndD hnone hd, hd]
          refine ⟨hsup, hdef, ?_⟩
          have hcov : ∀ p ∈ cls.fields, (dget attrs p.1).isSome := by
            intro p hp
            cases hk : dget kwargs p.1 with
            | some v => simp [hsup p.1 v hk]
            | none =>
                have h := hdef p.1 (List.mem_map_of_mem Prod.fst hp) hk
                rw [h.2]
                exact h.1
          show (contextBase attrs cls.fields []).map Prod.fst = _
          rw [contextBase_map_fst attrs cls.fields [] hcov (by simp) hndF]
          rfl

/-- Witness for C10: a two-field schema with one default, constructed
with only the required field supplied, in strict mode. -/
theorem construction_totality_witness :
    constructComponent
      ⟨"C", [("name", .prim .str), ("color", .prim .str)],
        [("color", .vStr "blue")]⟩
      [("name", .vStr "test")] true =
      .ok ([("name", .vStr "test"), ("color", .vStr "blue")], []) ∧
    dget [("name", PyVal.vStr "test"), ("color", PyVal.vStr "blue")]
      "name" = some (.vStr "test") ∧
    (dget [("color", PyVal.vStr "blue")] "color").isSome ∧
    dget [("name", PyVal.vStr "test"), ("color", PyVal.vStr "blue")]
      "color" = dget [("color", PyVal.vStr "blue")] "color" ∧
    (get_context_data
      ⟨"C", [("name", .prim .str), ("color", .prim .str)],
        [("color", .vStr "blue")]⟩
      [("name", .vStr "test"), ("color", .vStr "blue")] []).map Prod.fst =
      ["name", "color"] := by
  have h := construction_totality
    ⟨"C", [("name", .prim .str), ("color", .prim .str)],
      [("color", .vStr "blue")]⟩
    [("name", .vStr "test")]
    [("name", .vStr "test"), ("color", .vStr "blue")] [] true
    (by simp) (by simp) (by simp) rfl
  refine ⟨rfl, h.1 "name" (.vStr "test") rfl, ?_, ?_, h.2.2⟩
  · exact (h.2.1 "color" (by simp) rfl).1
  · exact (h.2.1 "color" (by simp) rfl).2

/-! ### Parser lemmas -/

theorem splitEq_append (key : List Char) (val : List Char)
    (h : '=' ∉ key) : splitEq (key ++ '=' :: val) = some (key, val) := by
  induction key with
  | nil => simp [splitEq]
  | cons c rest ih =>
      simp only [List.mem_cons, not_or] at h
      simp [splitEq, Ne.symm h.1, ih h.2]

theorem splitEq_none (l : List Char) (h : '=' ∉ l) : splitEq l = none := by
  induction l with
  | nil => rfl
  | cons c rest ih =>
      simp only [List.mem_cons, not_or] at h
      simp [splitEq, Ne.symm h.1, ih h.2]

/-- C6 evidence: the integer branch guard `value.lstrip("-").isdigit()`
strips every leading minus, so `count=--5` enters the integer branch
and `int("--5")` raises an unhandled `ValueError` at parse time —
where a single optional minus parses fine (`count=-5` is `-5`). -/
theorem int_branch_double_minus_crash :
    parse_tag_kwargs ["count=-5"] = .ok [("count", .int (-5))] ∧
    parse_tag_kwargs ["count=--5"] = .error (.valueError "--5") := by
  exact ⟨rfl, rfl⟩

/-- C7: quoted strings are classified before numeric parsing, so a
quoted numeral parses as a string with the quotes stripped — never a
number; and a fragment with no `=` raises the fatal
`TemplateSyntaxError`. -/
theorem quoted_before_numeric (key s b : String)
    (hkey : '=' ∉ key.data) (hb : '=' ∉ b.data) :
    parse_tag_kwargs [key ++ "=\"" ++ s ++ "\""] = .ok [(key, .str s)] ∧
    parse_tag_kwargs [b] = .error (.syntaxError
      ("Invalid argument '" ++
        (b ++ "'. Arguments must be in kwarg=value format."))) := by
  constructor
  · have hdata : (key ++ "=\"" ++ s ++ "\"").data
        = key.data ++ '=' :: ('"' :: (s.data ++ ['"'])) := by
      show ((key.data ++ ('=' :: '"' :: [])) ++ s.data) ++ ('"' :: []) = _
      simp
    have hsplit : splitEq (key ++ "=\"" ++ s ++ "\"").data
        = some (key.data, '"' :: (s.data ++ ['"'])) := by
      rw [hdata]
      exact splitEq_append key.data _ hkey
    have hlast : ('"' :: (s.data ++ ['"'])).getLast? = some '"' := by
      rw [show ('"' :: (s.data ++ ['"'])) = ('"' :: s.data) ++ ['"'] by simp]
      exact List.getLast?_concat _
    have hbit : parseBit (key ++ "=\"" ++ s ++ "\"") = .ok (key, .str s) := by
      simp only [parseBit, hsplit]
      rw [if_pos (Or.inl ⟨rfl, hlast⟩)]
      show Except.ok (String.mk key.data,
        TagValue.str (String.mk (s.data ++ ['"']).dropLast)) = _
      rw [List.dropLast_concat]
    simp only [parse_tag_kwargs, parseBits, hbit]
    rfl
  · have hsplit := splitEq_none b.data hb
    simp only [parse_tag_kwargs, parseBits, parseBit, hsplit]

/-- Witness for C7: `label="42"` parses as the string `"42"`, not a
number; the bare fragment `noequals` is a syntax error. -/
theorem quoted_before_numeric_witness :
    ('=' ∉ "label".data) ∧ ('=' ∉ "noequals".data) ∧
    parse_tag_kwargs ["label=\"42\""] = .ok [("label", .str "42")] ∧
    parse_tag_kwargs ["noequals"] = .error (.syntaxError
      ("Invalid argument '" ++
        ("noequals" ++ "'. Arguments must be in kwarg=value format."))) := by
  refine ⟨by decide, by decide, ?_⟩
  exact quoted_before_numeric "label" "42" "noequals" (by decide) (by decide)

end Djenga
